import Mathlib

/-!
Verification of the ozone CSV-to-netCDF converter (`main.py`, function
`make_ozone_netcdf`) against its natural-language specification.

Modelling conventions:
* Python strings are modelled as `String`, except the quality-control meaning
  strings, which are modelled as `List Char` so that the space-join /
  space-split behaviour of the `flag_meanings` attribute can be reasoned about
  precisely.
* A parsed pandas timestamp is a `Timestamp` record of calendar fields.
* The tabular data produced by `pd.read_csv` is a `Table`: presence flags for
  the four required columns, plus the list of raw rows.  Cells whose parsing
  can fail at a later pipeline stage (`Time (UTC)` via `pd.to_datetime`,
  `Ozone Concentration (ppb)` via the float conversion performed by the
  netCDF write) are `Option` values: `none` means the cell does not parse.
* The netCDF library is abstracted to the record `NcFile` holding exactly the
  attributes, variable attributes and variable data the code writes.
* File-handle behaviour is tracked in `ConvOutcome`: `inputClosed` models the
  `with open(...)` block for the input file, `outputOpened` records whether
  control reached `Dataset(out_file, 'w')` (line 48, which creates the file on
  disk), and `outputClosed` whether control reached `nc_file.close()`
  (line 83).  Errors are the Python exceptions, keyed by the statement that
  raises them.
-/

namespace Ozone

instance {ε α : Type} [DecidableEq ε] [DecidableEq α] :
    DecidableEq (Except ε α) := fun a b =>
  match a, b with
  | .error e, .error f =>
    if h : e = f then .isTrue (by rw [h]) else
      .isFalse (by intro hc; cases hc; exact h rfl)
  | .error _, .ok _ => .isFalse (by intro hc; cases hc)
  | .ok _, .error _ => .isFalse (by intro hc; cases hc)
  | .ok x, .ok y =>
    if h : x = y then .isTrue (by rw [h]) else
      .isFalse (by intro hc; cases hc; exact h rfl)

/-- A parsed timestamp, as produced by `pd.to_datetime` for one cell of the
`Time (UTC)` column. -/
structure Timestamp where
  year : Nat
  month : Nat
  day : Nat
  hour : Nat
  minute : Nat
  second : Nat
deriving DecidableEq, Repr

/-- A timestamp actually produced by the datetime parser has in-range
time-of-day fields. -/
def TimestampValid (ts : Timestamp) : Prop :=
  ts.hour < 24 ∧ ts.minute < 60 ∧ ts.second < 60

instance (ts : Timestamp) : Decidable (TimestampValid ts) :=
  inferInstanceAs (Decidable (ts.hour < 24 ∧ ts.minute < 60 ∧ ts.second < 60))

/-- One raw data row of the CSV after `pd.read_csv`.  `timeCell` is the
outcome of parsing the `Time (UTC)` cell (`none` = unparseable timestamp);
`ozoneCell` the outcome of reading the `Ozone Concentration (ppb)` cell as a
number (`none` = unparseable numeric cell); `qcValueCell` the
`Quality Control Falg Value` cell; `qcMeaningCell` the
`Quality Control Flag Meaning` cell. -/
structure RawRow where
  timeCell : Option Timestamp
  ozoneCell : Option Rat
  qcValueCell : Int
  qcMeaningCell : List Char
deriving DecidableEq, Repr

/-- The tabular section of the input file: which of the four required columns
are present, and the data rows. -/
structure Table where
  hasTime : Bool
  hasOzone : Bool
  hasQcValue : Bool
  hasQcMeaning : Bool
  rows : List RawRow
deriving DecidableEq, Repr

/-- Line 31 of `main.py`: `(h.hour * 3600) + (h.minute * 60) + (h.second)`. -/
def seconds_past_midnight (ts : Timestamp) : Nat :=
  ts.hour * 3600 + ts.minute * 60 + ts.second

/-- Line 45 of `main.py`: `.replace(' ', '_')` on a meaning string. -/
def sanitize (s : List Char) : List Char :=
  s.map fun c => if c = ' ' then '_' else c

/-- Lines 43-45 of `main.py`: the sanitized meaning of the first row (in
original order) whose flag value equals `v`.  The `[]` branch is unreachable
when `v` occurs in the data. -/
def firstMeaning (rows : List RawRow) (v : Int) : List Char :=
  match rows.find? fun r => r.qcValueCell == v with
  | some r => sanitize r.qcMeaningCell
  | none => []

/-- Collect a list of optional values; `none` as soon as one entry is `none`.
Models a pandas column operation that fails on the first bad cell. -/
def allSome {α : Type} : List (Option α) → Option (List α)
  | [] => some []
  | none :: _ => none
  | some a :: rest => (allSome rest).map fun l => a :: l

/-- Zero-pad a natural number to two digits, as `strftime` does for
`%m %d %H %M %S`. -/
def pad2 (n : Nat) : String :=
  if n < 10 then "0" ++ toString n else toString n

/-- Zero-pad a natural number to four digits, as `strftime` does for `%Y`. -/
def pad4 (n : Nat) : String :=
  if n < 10 then "000" ++ toString n
  else if n < 100 then "00" ++ toString n
  else if n < 1000 then "0" ++ toString n
  else toString n

/-- `strftime('%Y-%m-%d')` (lines 35 and 37 of `main.py`). -/
def fmtDate (ts : Timestamp) : String :=
  pad4 ts.year ++ "-" ++ pad2 ts.month ++ "-" ++ pad2 ts.day

/-- `strftime('%H:%M:%S')` (lines 36 and 38 of `main.py`). -/
def fmtTime (ts : Timestamp) : String :=
  pad2 ts.hour ++ ":" ++ pad2 ts.minute ++ ":" ++ pad2 ts.second

/-- The produced netCDF file: global attributes, the three variables with
their attributes and their data, in the shape `make_ozone_netcdf` writes
(lines 48-80 of `main.py`).  The four `Option` attributes are only set when
`expected_format` is true. -/
structure NcFile where
  title : String
  instrument_name : Option String
  contact : Option String
  description : Option String
  creator : Option String
  history : String
  start_time : String
  end_time : String
  time_units : String
  ozone_long_name : String
  ozone_units : String
  qc_long_name : String
  qc_flag_values : List Int
  qc_flag_meanings : List Char
  time_data : List Nat
  ozone_data : List Rat
  qc_data : List Int
deriving DecidableEq, Repr

/-- The Python exceptions `make_ozone_netcdf` can raise, keyed by the
statement raising them. -/
inductive ConvError
  /-- line 30: `KeyError` on `df['Time (UTC)']`. -/
  | missingTimeColumn
  /-- line 30: `pd.to_datetime` fails on an unparseable timestamp cell. -/
  | badTimestamp
  /-- line 35: `KeyError` on `df['Time (UTC)'][0]` when there are no rows. -/
  | emptyData
  /-- line 41: `KeyError` on `df['Quality Control Falg Value']`. -/
  | missingQcValueColumn
  /-- line 45: `KeyError` on `df['Quality Control Flag Meaning']`. -/
  | missingQcMeaningColumn
  /-- lines 50-54: `IndexError` on `header[i]` when `len(header) < 4`. -/
  | headerIndex
  /-- line 79: `KeyError` on `df['Ozone Concentration (ppb)']`. -/
  | missingOzoneColumn
  /-- line 79: writing a non-numeric cell to the float variable fails. -/
  | badNumeric
deriving DecidableEq, Repr

/-- The observable outcome of one call of `make_ozone_netcdf`: the produced
file or the raised exception, plus the state of the two file handles at the
moment the call returns or the exception propagates. -/
structure ConvOutcome where
  result : Except ConvError NcFile
  /-- the input text file handle was closed (the `with open` block). -/
  inputClosed : Bool
  /-- control reached `Dataset(out_file, 'w')` (line 48), which creates the
  output file on disk. -/
  outputOpened : Bool
  /-- control reached `nc_file.close()` (line 83). -/
  outputClosed : Bool
deriving Repr

/-- The successful output (lines 48-83 of `main.py`), given the parsed
timestamps `t0 :: rest` and the parsed ozone values `ozones`.  `now` is the
ambient process clock reading used for the `history` attribute. -/
def buildNc (header : List String) (tbl : Table) (expected_format : Bool)
    (now : String) (t0 : Timestamp) (rest : List Timestamp)
    (ozones : List Rat) : NcFile :=
  let tLast := List.getLast (t0 :: rest) (List.cons_ne_nil t0 rest)
  let qc_vals := List.insertionSort (fun a b => a ≤ b)
    (List.dedup (tbl.rows.map RawRow.qcValueCell))
  let qc_meanings := qc_vals.map (firstMeaning tbl.rows)
  { title := if expected_format then header.getD 0 "" ++ " Data"
      else "Ozone Concentration Data"
    instrument_name := if expected_format then some (header.getD 0 "") else none
    contact := if expected_format then some (header.getD 1 "") else none
    description := if expected_format then some (header.getD 2 "") else none
    creator := if expected_format then some (header.getD 3 "") else none
    history := "Created at " ++ now
    start_time := fmtDate t0 ++ " " ++ fmtTime t0 ++ "Z"
    end_time := fmtDate tLast ++ " " ++ fmtTime tLast ++ "Z"
    time_units := "seconds since " ++ fmtDate t0 ++ " 00:00:00 +00:00"
    ozone_long_name := "ozone concentration"
    ozone_units := "parts per billion"
    qc_long_name := "quality control flag"
    qc_flag_values := qc_vals
    qc_flag_meanings := List.intercalate [' '] qc_meanings
    time_data := (t0 :: rest).map seconds_past_midnight
    ozone_data := ozones
    qc_data := tbl.rows.map RawRow.qcValueCell }

/-- Shallow embedding of `make_ozone_netcdf` (lines 8-83 of `main.py`).
`header` is the list of `skiprows` header lines read by the `with open`
block, so `header.length` stands for `skiprows`; `tbl` is the result of
`pd.read_csv`; `now` the process clock.  Branches appear in the order the
corresponding Python statements execute, so each error is the first
exception the Python code would raise, and the two output-handle booleans
record whether lines 48 and 83 were reached before that point. -/
def make_ozone_netcdf (header : List String) (tbl : Table)
    (expected_format : Bool) (now : String) : ConvOutcome :=
  if tbl.hasTime = false then
    ⟨.error .missingTimeColumn, true, false, false⟩
  else
    match allSome (tbl.rows.map RawRow.timeCell) with
    | none => ⟨.error .badTimestamp, true, false, false⟩
    | some [] => ⟨.error .emptyData, true, false, false⟩
    | some (t0 :: rest) =>
      if tbl.hasQcValue = false then
        ⟨.error .missingQcValueColumn, true, false, false⟩
      else if tbl.hasQcMeaning = false then
        ⟨.error .missingQcMeaningColumn, true, false, false⟩
      else if expected_format = true ∧ header.length < 4 then
        ⟨.error .headerIndex, true, true, false⟩
      else if tbl.hasOzone = false then
        ⟨.error .missingOzoneColumn, true, true, false⟩
      else
        match allSome (tbl.rows.map RawRow.ozoneCell) with
        | none => ⟨.error .badNumeric, true, true, false⟩
        | some ozones =>
          ⟨.ok (buildNc header tbl expected_format now t0 rest ozones),
            true, true, true⟩

/-- Time-of-day reached by advancing midnight of some date by `n` seconds:
the decoding a netCDF reader applies to a `time` value against a
`seconds since <date> 00:00:00 +00:00` epoch. -/
def timeOfDay (n : Nat) : Nat × Nat × Nat :=
  (n % 86400 / 3600, n % 86400 / 60 % 60, n % 86400 % 60)

/-- Splitting a character sequence on spaces: the decoding a netCDF consumer
applies to the space-joined `flag_meanings` attribute. -/
def splitSpaces (s : List Char) : List (List Char) :=
  s.splitOn ' '

/-- A five-line header block in the expected format (`skiprows = 5`). -/
def sampleHeader : List String :=
  ["Ozone Monitor", "Jo Bloggs", "Ozone measurements at site", "Sam Smith",
   "extra line"]

/-- Three well-formed data rows; the flag values appear out of sorted order
and with a duplicate, and the meanings contain internal spaces. -/
def sampleRows : List RawRow :=
  [⟨some ⟨2023, 1, 1, 0, 0, 5⟩, some 12, 1, "Suspect data".data⟩,
   ⟨some ⟨2023, 1, 1, 0, 0, 10⟩, some 34, 0, "Good data".data⟩,
   ⟨some ⟨2023, 1, 1, 0, 0, 15⟩, some 56, 1, "Suspect data".data⟩]

/-- A well-formed table with all four required columns. -/
def sampleTable : Table := ⟨true, true, true, true, sampleRows⟩

/-- The same rows but with the `Ozone Concentration (ppb)` column absent. -/
def tableNoOzone : Table := ⟨true, false, true, true, sampleRows⟩

/-- A header block of only three lines (`skiprows = 3`). -/
def shortHeader : List String :=
  ["Ozone Monitor", "Jo Bloggs", "Ozone measurements at site"]

/-- A table with all four required columns but zero data rows. -/
def emptyTable : Table := ⟨true, true, true, true, []⟩

/-- The file produced on `sampleHeader`/`sampleTable` with
`expected_format = true` and clock reading `"T"`. -/
def sampleNc : NcFile :=
  { title := "Ozone Monitor Data"
    instrument_name := some "Ozone Monitor"
    contact := some "Jo Bloggs"
    description := some "Ozone measurements at site"
    creator := some "Sam Smith"
    history := "Created at T"
    start_time := "2023-01-01 00:00:05Z"
    end_time := "2023-01-01 00:00:15Z"
    time_units := "seconds since 2023-01-01 00:00:00 +00:00"
    ozone_long_name := "ozone concentration"
    ozone_units := "parts per billion"
    qc_long_name := "quality control flag"
    qc_flag_values := [0, 1]
    qc_flag_meanings := "Good_data Suspect_data".data
    time_data := [5, 10, 15]
    ozone_data := [12, 34, 56]
    qc_data := [1, 0, 1] }

/-- The file produced on the same input with `expected_format = false`. -/
def sampleNcNoFmt : NcFile :=
  { sampleNc with
    title := "Ozone Concentration Data"
    instrument_name := none
    contact := none
    description := none
    creator := none }

example : (make_ozone_netcdf sampleHeader sampleTable true "T").result =
    Except.ok sampleNc := by decide

example : (make_ozone_netcdf sampleHeader sampleTable false "T").result =
    Except.ok sampleNcNoFmt := by decide

example : (make_ozone_netcdf sampleHeader tableNoOzone true "T").result =
    Except.error ConvError.missingOzoneColumn := by decide

example : (make_ozone_netcdf sampleHeader tableNoOzone true "T").outputOpened =
    true := by decide

example : (make_ozone_netcdf shortHeader sampleTable true "T").result =
    Except.error ConvError.headerIndex := by decide

example : (make_ozone_netcdf sampleHeader emptyTable true "T").result =
    Except.error ConvError.emptyData := by decide

example : (make_ozone_netcdf ([] : List String) emptyTable true "T").result =
    Except.error ConvError.emptyData := by decide

theorem allSome_eq_map_some {α : Type} {l : List (Option α)} {l2 : List α}
    (h : allSome l = some l2) : l = l2.map some := by
  induction l generalizing l2 with
  | nil =>
    simp only [allSome, Option.some.injEq] at h
    subst h; rfl
  | cons a as ih =>
    cases a with
    | none => simp [allSome] at h
    | some x =>
      simp only [allSome, Option.map_eq_some'] at h
      obtain ⟨l3, h1, h2⟩ := h
      subst h2
      simp [ih h1]

theorem map_eq_map_some_length {α β : Type} {f : α → Option β}
    {rows : List α} {ts : List β} (h : rows.map f = ts.map some) :
    rows.length = ts.length := by
  have := congrArg List.length h
  simpa using this

theorem map_eq_map_some_get {α β : Type} {f : α → Option β} :
    ∀ {rows : List α} {ts : List β}, rows.map f = ts.map some →
    ∀ i (hi : i < rows.length) (hi2 : i < ts.length),
      f (rows.get ⟨i, hi⟩) = some (ts.get ⟨i, hi2⟩) := by
  intro rows
  induction rows with
  | nil => intro ts h i hi; exact absurd hi (by simp)
  | cons r rs ih =>
    intro ts h i hi hi2
    cases ts with
    | nil => simp at h
    | cons t ts2 =>
      simp only [List.map_cons, List.cons.injEq] at h
      cases i with
      | zero => simpa using h.1
      | succ n =>
        exact ih h.2 n (by simpa using hi) (by simpa using hi2)

theorem make_ok_spec (header : List String) (tbl : Table) (ef : Bool)
    (now : String) (nc : NcFile)
    (h : (make_ozone_netcdf header tbl ef now).result = Except.ok nc) :
    tbl.hasTime = true ∧ tbl.hasQcValue = true ∧ tbl.hasQcMeaning = true ∧
    tbl.hasOzone = true ∧ ¬(ef = true ∧ header.length < 4) ∧
    ∃ t0 rest ozones,
      allSome (tbl.rows.map RawRow.timeCell) = some (t0 :: rest) ∧
      allSome (tbl.rows.map RawRow.ozoneCell) = some ozones ∧
      nc = buildNc header tbl ef now t0 rest ozones := by
  unfold make_ozone_netcdf at h
  split at h
  · simp [ConvOutcome.result] at h
  · rename_i hTime
    split at h
    · simp [ConvOutcome.result] at h
    · simp [ConvOutcome.result] at h
    · rename_i t0 rest htime
      split at h
      · simp [ConvOutcome.result] at h
      · rename_i hQcV
        split at h
        · simp [ConvOutcome.result] at h
        · rename_i hQcM
          split at h
          · simp [ConvOutcome.result] at h
          · rename_i hGuard
            split at h
            · simp [ConvOutcome.result] at h
            · rename_i hOz
              split at h
              · simp [ConvOutcome.result] at h
              · rename_i ozones hoz
                simp only [ConvOutcome.result, Except.ok.injEq] at h
                refine ⟨?_, ?_, ?_, ?_, hGuard,
                  t0, rest, ozones, htime, hoz, h.symm⟩
                · revert hTime; cases tbl.hasTime <;> simp
                · revert hQcV; cases tbl.hasQcValue <;> simp
                · revert hQcM; cases tbl.hasQcMeaning <;> simp
                · revert hOz; cases tbl.hasOzone <;> simp

/-- C1: for every parsed measurement row, the value written into the `time`
variable equals `hour*3600 + minute*60 + second` of that row's parsed
timestamp, and (the value being a natural number, hence at least 0) for
in-range parsed timestamps it is at most 86399. -/
theorem C1_time_values (header : List String) (tbl : Table) (ef : Bool)
    (now : String) (nc : NcFile)
    (h : (make_ozone_netcdf header tbl ef now).result = Except.ok nc) :
    nc.time_data.length = tbl.rows.length ∧
    ∀ i (hi : i < tbl.rows.length) (hi2 : i < nc.time_data.length)
      (t : Timestamp), (tbl.rows.get ⟨i, hi⟩).timeCell = some t →
      nc.time_data.get ⟨i, hi2⟩ = t.hour * 3600 + t.minute * 60 + t.second ∧
      (TimestampValid t → nc.time_data.get ⟨i, hi2⟩ ≤ 86399) := by
  obtain ⟨hT, hQV, hQM, hO, hG, t0, rest, ozones, htime, hoz, hnc⟩ :=
    make_ok_spec header tbl ef now nc h
  subst hnc
  have hmap := allSome_eq_map_some htime
  have hlen : tbl.rows.length = (t0 :: rest).length :=
    map_eq_map_some_length hmap
  refine ⟨by simp [buildNc, List.length_map, hlen], ?_⟩
  intro i hi hi2 t ht
  have hi3 : i < (t0 :: rest).length := hlen ▸ hi
  have hget := map_eq_map_some_get hmap i hi hi3
  rw [ht] at hget
  have ht2 : (t0 :: rest).get ⟨i, hi3⟩ = t := (Option.some.inj hget).symm
  rw [List.get_eq_getElem] at ht2
  have hval : (buildNc header tbl ef now t0 rest ozones).time_data.get
      ⟨i, hi2⟩ = seconds_past_midnight t := by
    show ((t0 :: rest).map seconds_past_midnight).get ⟨i, hi2⟩ = _
    rw [List.get_eq_getElem, List.getElem_map, ht2]
  refine ⟨by rw [hval]; rfl, fun hv => ?_⟩
  rw [hval]
  obtain ⟨h1, h2, h3⟩ := hv
  unfold seconds_past_midnight
  omega

/-- C1 witness: on the sample input, the first written time value is
`0*3600 + 0*60 + 5` and lies within bound. -/
theorem C1_time_values_witness :
    sampleNc.time_data.length = sampleTable.rows.length ∧
    sampleNc.time_data.get ⟨0, by decide⟩ = 0 * 3600 + 0 * 60 + 5 ∧
    sampleNc.time_data.get ⟨0, by decide⟩ ≤ 86399 := by
  have h := C1_time_values sampleHeader sampleTable true "T" sampleNc
    (by decide)
  have h2 := h.2 0 (by decide) (by decide)
    (Timestamp.mk 2023 1 1 0 0 5) (by decide)
  exact ⟨h.1, h2.1, h2.2 (by decide)⟩

/-- C3: each of the three variables receives exactly one value per parsed
data row, and the values appear in input row order: the i-th `time` value is
the seconds-past-midnight of the i-th row's timestamp, the i-th ozone value
is the i-th row's parsed ozone cell, and the i-th qc value is the i-th row's
flag value. -/
theorem C3_counts_and_order (header : List String) (tbl : Table) (ef : Bool)
    (now : String) (nc : NcFile)
    (h : (make_ozone_netcdf header tbl ef now).result = Except.ok nc) :
    nc.time_data.length = tbl.rows.length ∧
    nc.ozone_data.length = tbl.rows.length ∧
    nc.qc_data.length = tbl.rows.length ∧
    (∀ i (hi : i < tbl.rows.length) (ht : i < nc.time_data.length),
      Option.map seconds_past_midnight ((tbl.rows.get ⟨i, hi⟩).timeCell) =
        some (nc.time_data.get ⟨i, ht⟩)) ∧
    (∀ i (hi : i < tbl.rows.length) (ho : i < nc.ozone_data.length),
      (tbl.rows.get ⟨i, hi⟩).ozoneCell = some (nc.ozone_data.get ⟨i, ho⟩)) ∧
    (∀ i (hi : i < tbl.rows.length) (hq : i < nc.qc_data.length),
      nc.qc_data.get ⟨i, hq⟩ = (tbl.rows.get ⟨i, hi⟩).qcValueCell) := by
  obtain ⟨hT, hQV, hQM, hO, hG, t0, rest, ozones, htime, hoz, hnc⟩ :=
    make_ok_spec header tbl ef now nc h
  subst hnc
  have hmt := allSome_eq_map_some htime
  have hmo := allSome_eq_map_some hoz
  have hlt : tbl.rows.length = (t0 :: rest).length :=
    map_eq_map_some_length hmt
  have hlo : tbl.rows.length = ozones.length := map_eq_map_some_length hmo
  refine ⟨by simp [buildNc, hlt], by simp [buildNc, hlo],
    by simp [buildNc], ?_, ?_, ?_⟩
  · intro i hi ht
    have hi3 : i < (t0 :: rest).length := hlt ▸ hi
    have hget := map_eq_map_some_get hmt i hi hi3
    rw [hget]
    show _ = some (((t0 :: rest).map seconds_past_midnight).get ⟨i, ht⟩)
    cases i with
    | zero => rfl
    | succ n => simp [List.get_eq_getElem, List.getElem_map]
  · intro i hi ho
    have hi3 : i < ozones.length := hlo ▸ hi
    have hget := map_eq_map_some_get hmo i hi hi3
    rw [hget]
    show some (ozones.get ⟨i, hi3⟩) = some (ozones.get ⟨i, ho⟩)
    rfl
  · intro i hi hq
    show (tbl.rows.map RawRow.qcValueCell).get ⟨i, hq⟩ = _
    rw [List.get_eq_getElem, List.getElem_map]
    simp [List.get_eq_getElem]

/-- C3 witness: on the sample input all three variables hold three values,
and the first ozone value is the first row's ozone cell. -/
theorem C3_counts_and_order_witness :
    sampleNc.time_data.length = sampleTable.rows.length ∧
    sampleNc.ozone_data.length = sampleTable.rows.length ∧
    sampleNc.qc_data.length = sampleTable.rows.length ∧
    (sampleTable.rows.get ⟨0, by decide⟩).ozoneCell =
      some (sampleNc.ozone_data.get ⟨0, by decide⟩) := by
  have h := C3_counts_and_order sampleHeader sampleTable true "T" sampleNc
    (by decide)
  exact ⟨h.1, h.2.1, h.2.2.1, h.2.2.2.2.1 0 (by decide) (by decide)⟩

/-- C4: the `units` attribute of the `time` variable is exactly
`"seconds since {start_date} 00:00:00 +00:00"` where `start_date` is the
first row's date formatted `YYYY-MM-DD`; the formatted date is independent of
the first row's time-of-day fields, so the epoch is always midnight of that
date. -/
theorem C4_time_units (header : List String) (tbl : Table) (ef : Bool)
    (now : String) (nc : NcFile)
    (h : (make_ozone_netcdf header tbl ef now).result = Except.ok nc) :
    ∀ r0 rs, tbl.rows = r0 :: rs → ∀ t, r0.timeCell = some t →
      nc.time_units = "seconds since " ++ fmtDate t ++ " 00:00:00 +00:00" ∧
      ∀ hh mm ss,
        fmtDate (Timestamp.mk t.year t.month t.day hh mm ss) = fmtDate t := by
  obtain ⟨hT, hQV, hQM, hO, hG, t0, rest, ozones, htime, hoz, hnc⟩ :=
    make_ok_spec header tbl ef now nc h
  subst hnc
  have hmt := allSome_eq_map_some htime
  intro r0 rs hrows t ht
  rw [hrows] at hmt
  simp only [List.map_cons, List.cons.injEq] at hmt
  have ht0 : t = t0 := by
    rw [ht] at hmt
    exact Option.some.inj hmt.1
  subst ht0
  exact ⟨rfl, fun hh mm ss => rfl⟩

/-- C4 witness: on the sample input the units string names the first row's
date at midnight, and the date format ignores time-of-day. -/
theorem C4_time_units_witness :
    sampleNc.time_units =
      "seconds since " ++ fmtDate (Timestamp.mk 2023 1 1 0 0 5) ++
        " 00:00:00 +00:00" ∧
    fmtDate (Timestamp.mk 2023 1 1 23 59 58) =
      fmtDate (Timestamp.mk 2023 1 1 0 0 5) := by
  have h := C4_time_units sampleHeader sampleTable true "T" sampleNc
    (by decide) (sampleRows.get ⟨0, by decide⟩)
    (sampleRows.drop 1) (by decide) (Timestamp.mk 2023 1 1 0 0 5) (by decide)
  exact ⟨h.1, h.2 23 59 58⟩

/-- C6: with `expected_format = false` the output's global attributes are the
fixed default title, the history, and the start and end times; the
instrument_name, contact, description and creator attributes are not set. -/
theorem C6_default_attrs (header : List String) (tbl : Table) (now : String)
    (nc : NcFile)
    (h : (make_ozone_netcdf header tbl false now).result = Except.ok nc) :
    nc.title = "Ozone Concentration Data" ∧ nc.instrument_name = none ∧
    nc.contact = none ∧ nc.description = none ∧ nc.creator = none ∧
    nc.history = "Created at " ++ now := by
  obtain ⟨hT, hQV, hQM, hO, hG, t0, rest, ozones, htime, hoz, hnc⟩ :=
    make_ok_spec header tbl false now nc h
  subst hnc
  exact ⟨rfl, rfl, rfl, rfl, rfl, rfl⟩

/-- C6 witness: the sample conversion with `expected_format = false` sets
only the default title and none of the header-derived attributes. -/
theorem C6_default_attrs_witness :
    sampleNcNoFmt.title = "Ozone Concentration Data" ∧
    sampleNcNoFmt.instrument_name = none ∧ sampleNcNoFmt.contact = none ∧
    sampleNcNoFmt.description = none ∧ sampleNcNoFmt.creator = none ∧
    sampleNcNoFmt.history = "Created at " ++ "T" := by
  exact C6_default_attrs sampleHeader sampleTable "T" sampleNcNoFmt
    (by decide)

theorem space_not_mem_sanitize (s : List Char) : ' ' ∉ sanitize s := by
  unfold sanitize
  intro hmem
  simp only [List.mem_map] at hmem
  obtain ⟨c, hc, hcf⟩ := hmem
  by_cases hsp : c = ' '
  · rw [if_pos hsp] at hcf
    exact absurd hcf (by decide)
  · rw [if_neg hsp] at hcf
    exact hsp hcf

theorem space_not_mem_firstMeaning (rows : List RawRow) (v : Int) :
    ' ' ∉ firstMeaning rows v := by
  unfold firstMeaning
  split
  · exact space_not_mem_sanitize _
  · simp

/-- C2: the `flag_values` attribute is the strictly ascending duplicate-free
list of the distinct flag values occurring in the data, and the
`flag_meanings` attribute, split on spaces, has the same length, its i-th
entry being the meaning of the first row (in input order) carrying the i-th
flag value, with spaces replaced by underscores. -/
theorem C2_qc_attrs (header : List String) (tbl : Table) (ef : Bool)
    (now : String) (nc : NcFile)
    (h : (make_ozone_netcdf header tbl ef now).result = Except.ok nc) :
    List.Sorted (fun a b : Int => a < b) nc.qc_flag_values ∧
    (∀ v : Int, v ∈ nc.qc_flag_values ↔ v ∈ tbl.rows.map RawRow.qcValueCell) ∧
    (splitSpaces nc.qc_flag_meanings).length = nc.qc_flag_values.length ∧
    ∀ (i : Nat) (v : Int) (m : List Char), nc.qc_flag_values[i]? = some v →
      (splitSpaces nc.qc_flag_meanings)[i]? = some m →
      ∃ r, tbl.rows.find? (fun row => row.qcValueCell == v) = some r ∧
        m = sanitize r.qcMeaningCell := by
  obtain ⟨hT, hQV, hQM, hO, hG, t0, rest, ozones, htime, hoz, hnc⟩ :=
    make_ok_spec header tbl ef now nc h
  subst hnc
  have hmt := allSome_eq_map_some htime
  have hrows_ne : tbl.rows ≠ [] := by
    intro he
    rw [he] at hmt
    exact absurd hmt (by simp)
  have hqcv : (buildNc header tbl ef now t0 rest ozones).qc_flag_values =
      List.insertionSort (fun a b => a ≤ b)
        (List.dedup (tbl.rows.map RawRow.qcValueCell)) := rfl
  have hqcm : (buildNc header tbl ef now t0 rest ozones).qc_flag_meanings =
      List.intercalate [' ']
        ((List.insertionSort (fun a b => a ≤ b)
          (List.dedup (tbl.rows.map RawRow.qcValueCell))).map
            (firstMeaning tbl.rows)) := rfl
  rw [hqcv, hqcm]
  set vals := tbl.rows.map RawRow.qcValueCell with hvals
  set qcv := List.insertionSort (fun a b => a ≤ b) vals.dedup with hqcvdef
  have hperm : qcv.Perm vals.dedup := List.perm_insertionSort _ _
  have hnodup : qcv.Nodup := hperm.nodup_iff.mpr (List.nodup_dedup _)
  have hsorted : List.Sorted (fun a b : Int => a ≤ b) qcv :=
    List.sorted_insertionSort _ _
  have hvalsne : vals ≠ [] := by
    rw [hvals]
    intro he
    exact hrows_ne (List.map_eq_nil_iff.mp he)
  have hmapne : qcv.map (firstMeaning tbl.rows) ≠ [] := by
    intro he
    have h1 := List.map_eq_nil_iff.mp he
    have h2 := hperm.length_eq
    rw [h1] at h2
    exact hvalsne ((List.dedup_eq_nil vals).mp
      (List.length_eq_zero.mp h2.symm))
  have hsplit : splitSpaces
      (List.intercalate [' '] (qcv.map (firstMeaning tbl.rows))) =
      qcv.map (firstMeaning tbl.rows) := by
    show (List.intercalate [' ']
      (qcv.map (firstMeaning tbl.rows))).splitOn ' ' = _
    refine List.splitOn_intercalate _ ' ' ?_ hmapne
    intro l hl
    obtain ⟨v, hv, hfl⟩ := List.mem_map.mp hl
    rw [← hfl]
    exact space_not_mem_firstMeaning _ _
  refine ⟨hsorted.lt_of_le hnodup, ?_, ?_, ?_⟩
  · intro v
    rw [hperm.mem_iff, List.mem_dedup]
  · rw [hsplit, List.length_map]
  · intro i v m hv hm
    rw [hsplit, List.getElem?_map, hv, Option.map_some'] at hm
    have hvq : v ∈ qcv := List.getElem?_mem hv
    have hvm : v ∈ vals := by
      rw [hperm.mem_iff, List.mem_dedup] at hvq
      exact hvq
    rw [hvals] at hvm
    obtain ⟨r0, hr0, hr0e⟩ := List.mem_map.mp hvm
    have hfind : (tbl.rows.find? fun row => row.qcValueCell == v).isSome := by
      rw [List.find?_isSome]
      exact ⟨r0, hr0, by simp [hr0e]⟩
    obtain ⟨r, hr⟩ := Option.isSome_iff_exists.mp hfind
    refine ⟨r, hr, ?_⟩
    rw [← Option.some_inj.mp hm]
    simp [firstMeaning, hr]

/-- C2 witness: on the sample input the flag values are the sorted distinct
codes `[0, 1]` and the first meaning entry is the sanitized meaning of the
first row carrying flag 0. -/
theorem C2_qc_attrs_witness :
    List.Sorted (fun a b : Int => a < b) sampleNc.qc_flag_values ∧
    ((0 : Int) ∈ sampleNc.qc_flag_values ↔
      (0 : Int) ∈ sampleTable.rows.map RawRow.qcValueCell) ∧
    (splitSpaces sampleNc.qc_flag_meanings).length =
      sampleNc.qc_flag_values.length ∧
    ∃ r, sampleTable.rows.find? (fun row => row.qcValueCell == (0 : Int)) =
        some r ∧
      "Good_data".data = sanitize r.qcMeaningCell := by
  have h := C2_qc_attrs sampleHeader sampleTable true "T" sampleNc (by decide)
  exact ⟨h.1, h.2.1 0, h.2.2.1,
    h.2.2.2 0 0 ("Good_data".data) (by decide) (by decide)⟩

/-- C5: adding the stored `time` value of each row, as seconds, to midnight
of the epoch date encoded in the `units` attribute reproduces the row's
original time-of-day to the second. -/
theorem C5_round_trip (header : List String) (tbl : Table) (ef : Bool)
    (now : String) (nc : NcFile)
    (h : (make_ozone_netcdf header tbl ef now).result = Except.ok nc) :
    ∀ i (hi : i < tbl.rows.length) (hi2 : i < nc.time_data.length)
      (t : Timestamp), (tbl.rows.get ⟨i, hi⟩).timeCell = some t →
      TimestampValid t →
      timeOfDay (nc.time_data.get ⟨i, hi2⟩) =
        (t.hour, t.minute, t.second) := by
  obtain ⟨hT, hQV, hQM, hO, hG, t0, rest, ozones, htime, hoz, hnc⟩ :=
    make_ok_spec header tbl ef now nc h
  subst hnc
  have hmap := allSome_eq_map_some htime
  have hlen : tbl.rows.length = (t0 :: rest).length :=
    map_eq_map_some_length hmap
  intro i hi hi2 t ht hv
  have hi3 : i < (t0 :: rest).length := hlen ▸ hi
  have hget := map_eq_map_some_get hmap i hi hi3
  rw [ht] at hget
  have ht2 : (t0 :: rest).get ⟨i, hi3⟩ = t := (Option.some.inj hget).symm
  rw [List.get_eq_getElem] at ht2
  have hval : (buildNc header tbl ef now t0 rest ozones).time_data.get
      ⟨i, hi2⟩ = seconds_past_midnight t := by
    show ((t0 :: rest).map seconds_past_midnight).get ⟨i, hi2⟩ = _
    rw [List.get_eq_getElem, List.getElem_map, ht2]
  rw [hval]
  obtain ⟨h1, h2, h3⟩ := hv
  simp only [timeOfDay, seconds_past_midnight, Prod.mk.injEq]
  refine ⟨?_, ?_, ?_⟩ <;> omega

/-- C5 witness: the second sample row stores 10, and 10 seconds past
midnight is time-of-day 00:00:10, the row's original time. -/
theorem C5_round_trip_witness :
    timeOfDay (sampleNc.time_data.get ⟨1, by decide⟩) = (0, 0, 10) := by
  exact C5_round_trip sampleHeader sampleTable true "T" sampleNc (by decide)
    1 (by decide) (by decide) (Timestamp.mk 2023 1 1 0 0 10) (by decide)
    (by decide)

/-- C7 counterexample: with only the `Ozone Concentration (ppb)` column
missing, the conversion fails, but only at the data-write stage, after the
output file has been created, and the partial output file is never closed or
removed. -/
theorem C7_counterexample :
    (make_ozone_netcdf sampleHeader tableNoOzone true "T").result =
      Except.error ConvError.missingOzoneColumn ∧
    (make_ozone_netcdf sampleHeader tableNoOzone true "T").outputOpened =
      true ∧
    (make_ozone_netcdf sampleHeader tableNoOzone true "T").outputClosed =
      false := by
  exact ⟨by decide, by decide, by decide⟩

/-- C7 amended: malformed tabular data always aborts the conversion; a
missing `Time (UTC)`/flag-value/flag-meaning column or an unparseable
timestamp is detected before the output file is created, but a missing ozone
column or an unparseable numeric cell is detected only while writing data,
after the output file has been created, and the partial file is then left
behind unclosed. -/
theorem C7_malformed (header : List String) (tbl : Table) (ef : Bool)
    (now : String) :
    ((tbl.hasTime = false ∨ tbl.hasOzone = false ∨ tbl.hasQcValue = false ∨
        tbl.hasQcMeaning = false ∨
        allSome (tbl.rows.map RawRow.timeCell) = none ∨
        allSome (tbl.rows.map RawRow.ozoneCell) = none) →
      ∀ nc : NcFile,
        (make_ozone_netcdf header tbl ef now).result ≠ Except.ok nc) ∧
    ((tbl.hasTime = false ∨ tbl.hasQcValue = false ∨
        tbl.hasQcMeaning = false ∨
        allSome (tbl.rows.map RawRow.timeCell) = none) →
      (make_ozone_netcdf header tbl ef now).outputOpened = false) ∧
    (((make_ozone_netcdf header tbl ef now).result =
        Except.error ConvError.missingOzoneColumn ∨
      (make_ozone_netcdf header tbl ef now).result =
        Except.error ConvError.badNumeric) →
      (make_ozone_netcdf header tbl ef now).outputOpened = true ∧
      (make_ozone_netcdf header tbl ef now).outputClosed = false) := by
  refine ⟨?_, ?_, ?_⟩
  · intro hbad nc hok
    obtain ⟨hT, hQV, hQM, hO, hG, t0, rest, ozones, htime, hoz, hnc⟩ :=
      make_ok_spec header tbl ef now nc hok
    rcases hbad with hb | hb | hb | hb | hb | hb <;> simp_all
  · intro hbad
    unfold make_ozone_netcdf
    rcases hbad with hb | hb | hb | hb <;>
      (repeat' split) <;> simp_all
  · intro hres
    rcases hres with hres | hres <;>
      (revert hres
       unfold make_ozone_netcdf
       repeat' split) <;> simp

/-- C7 witness: on the missing-ozone-column input the amended claim's
after-creation clause applies: the output file exists and was not closed. -/
theorem C7_malformed_witness :
    (make_ozone_netcdf sampleHeader tableNoOzone true "T").outputOpened =
      true ∧
    (make_ozone_netcdf sampleHeader tableNoOzone true "T").outputClosed =
      false := by
  exact (C7_malformed sampleHeader tableNoOzone true "T").2.2
    (Or.inl (by decide))

/-- C8 counterexample: a three-line header with `expected_format = true` on
otherwise valid data makes the conversion raise after creating the output
container, and the output handle is never closed before the error
propagates. -/
theorem C8_counterexample :
    (make_ozone_netcdf shortHeader sampleTable true "T").result =
      Except.error ConvError.headerIndex ∧
    (make_ozone_netcdf shortHeader sampleTable true "T").outputOpened =
      true ∧
    (make_ozone_netcdf shortHeader sampleTable true "T").outputClosed =
      false := by
  exact ⟨by decide, by decide, by decide⟩

/-- C8 amended: the input file handle is always released (the `with` block),
and the output handle is closed on the success path; but on every failure
path the close statement is never reached, so any failure after the output
container is created leaves its handle open when the error propagates. -/
theorem C8_handles (header : List String) (tbl : Table) (ef : Bool)
    (now : String) :
    (make_ozone_netcdf header tbl ef now).inputClosed = true ∧
    (∀ nc, (make_ozone_netcdf header tbl ef now).result = Except.ok nc →
      (make_ozone_netcdf header tbl ef now).outputOpened = true ∧
      (make_ozone_netcdf header tbl ef now).outputClosed = true) ∧
    (∀ e, (make_ozone_netcdf header tbl ef now).result = Except.error e →
      (make_ozone_netcdf header tbl ef now).outputClosed = false) := by
  refine ⟨?_, ?_, ?_⟩
  · unfold make_ozone_netcdf
    (repeat' split) <;> simp
  · intro nc
    unfold make_ozone_netcdf
    (repeat' split) <;> simp
  · intro e
    unfold make_ozone_netcdf
    (repeat' split) <;> simp

/-- C8 witness: on the short-header input the conversion errors and the
output handle is not closed; the input handle is closed. -/
theorem C8_handles_witness :
    (make_ozone_netcdf shortHeader sampleTable true "T").inputClosed =
      true ∧
    (make_ozone_netcdf shortHeader sampleTable true "T").outputClosed =
      false := by
  exact ⟨(C8_handles shortHeader sampleTable true "T").1,
    (C8_handles shortHeader sampleTable true "T").2.2
      ConvError.headerIndex (by decide)⟩

/-- C9 counterexample: on an input with all four columns and zero data rows
the conversion does not complete with an (empty) output file: it fails with
the first-row index error. -/
theorem C9_counterexample :
    (make_ozone_netcdf sampleHeader emptyTable true "T").result =
      Except.error ConvError.emptyData := by
  decide

/-- C9 amended: a zero-row input makes the conversion fail with the
out-of-range first-row access raised while deriving the start date, before
the output container is created, so no output file is produced at all. -/
theorem C9_empty_fails (header : List String) (tbl : Table) (ef : Bool)
    (now : String) (h1 : tbl.hasTime = true) (h2 : tbl.rows = []) :
    (make_ozone_netcdf header tbl ef now).result =
      Except.error ConvError.emptyData ∧
    (make_ozone_netcdf header tbl ef now).outputOpened = false := by
  unfold make_ozone_netcdf
  rw [h1, h2]
  simp [allSome]

/-- C9 witness: the amended claim applied to the concrete zero-row input. -/
theorem C9_empty_fails_witness :
    (make_ozone_netcdf sampleHeader emptyTable true "T").result =
      Except.error ConvError.emptyData ∧
    (make_ozone_netcdf sampleHeader emptyTable true "T").outputOpened =
      false := by
  exact C9_empty_fails sampleHeader emptyTable true "T" (by decide)
    (by decide)

/-- C10 counterexample: with an empty header block (`skiprows = 0`, so fewer
than 4 header lines) and a zero-row table, the conversion fails with the
empty-data error rather than the header index error, and it fails before the
output file is created, contradicting the claim that a short header always
fails with an out-of-range header index after the output file exists. -/
theorem C10_counterexample :
    (make_ozone_netcdf ([] : List String) emptyTable true "T").result =
      Except.error ConvError.emptyData ∧
    (make_ozone_netcdf ([] : List String) emptyTable true "T").outputOpened =
      false := by
  exact ⟨by decide, by decide⟩

/-- C10 amended: with `expected_format = true` and fewer than 4 header lines
the conversion can never succeed; whenever the data stages pass (time column
present and parseable with at least one row, both QC columns present), it
fails with the out-of-range header index error, after the output file has
been created and without closing it. -/
theorem C10_short_header (header : List String) (tbl : Table) (now : String)
    (hlen : header.length < 4) :
    (∀ nc : NcFile,
      (make_ozone_netcdf header tbl true now).result ≠ Except.ok nc) ∧
    (∀ t0 rest, tbl.hasTime = true →
      allSome (tbl.rows.map RawRow.timeCell) = some (t0 :: rest) →
      tbl.hasQcValue = true → tbl.hasQcMeaning = true →
      (make_ozone_netcdf header tbl true now).result =
        Except.error ConvError.headerIndex ∧
      (make_ozone_netcdf header tbl true now).outputOpened = true ∧
      (make_ozone_netcdf header tbl true now).outputClosed = false) := by
  constructor
  · intro nc hok
    obtain ⟨hT, hQV, hQM, hO, hG, t0, rest, ozones, htime, hoz, hnc⟩ :=
      make_ok_spec header tbl true now nc hok
    exact hG ⟨rfl, hlen⟩
  · intro t0 rest hTime hall hQcV hQcM
    unfold make_ozone_netcdf
    rw [hTime, hall, hQcV, hQcM]
    refine ⟨?_, ?_, ?_⟩ <;> simp [hlen]

/-- C10 witness: the amended claim applied to the three-line header and the
well-formed sample table. -/
theorem C10_short_header_witness :
    (make_ozone_netcdf shortHeader sampleTable true "T").result =
      Except.error ConvError.headerIndex ∧
    (make_ozone_netcdf shortHeader sampleTable true "T").outputOpened =
      true ∧
    (make_ozone_netcdf shortHeader sampleTable true "T").outputClosed =
      false := by
  exact (C10_short_header shortHeader sampleTable "T" (by decide)).2
    (Timestamp.mk 2023 1 1 0 0 5)
    [Timestamp.mk 2023 1 1 0 0 10, Timestamp.mk 2023 1 1 0 0 15]
    (by decide) (by decide) (by decide) (by decide)

end Ozone
